import Mathlib

/-!
Verification of the Shenandoah GC barrier-runtime entry points
(`src/hotspot/share/gc/shenandoah/shenandoahRuntime.cpp`) against their
natural-language specification.

The trampoline entry points in `shenandoahRuntime.cpp` are embedded
directly from the source.  The barrier-set operations they delegate to
(`ShenandoahBarrierSet::write_barrier`, `::write_ref_array_pre`,
`::write_region`, and the SATB queue `enqueue`) live outside the provided
source tree, so they are modelled from the specification's description of
their contracts; each such definition carries a doc comment starting
`Modelled from the spec:`.

Object references (`oopDesc*` / `oop`) are modelled as natural numbers,
with `0` playing the role of the C++ `NULL`.  Narrow (compressed)
references are a second numeric encoding related to the full-width one by
a decode function that maps narrow null (`0`) to null.
-/

/-- An object reference (`oopDesc*`): a heap address, `0` meaning `NULL`. -/
abbrev ObjRef := Nat

/-- Forwarding state read from an object's header: either the object has
not been relocated (`Self`) or it has been relocated and the header holds
the authoritative to-space reference (`ForwardedTo target`). -/
inductive ForwardingState where
  | Self : ForwardingState
  | ForwardedTo : ObjRef → ForwardingState
deriving DecidableEq

/-- A heap forwarding assignment: the forwarding state of every object. -/
abbrev FwdHeap := ObjRef → ForwardingState

/-- Modelled from the spec: forwarding resolution (§4.3), the body of
`ShenandoahBarrierSet::write_barrier`, which is not under `src/`.  Reads
the object's forwarding state; `Self` returns the reference unchanged,
`ForwardedTo target` returns `target`. -/
def resolve (h : FwdHeap) (r : ObjRef) : ObjRef :=
  match h r with
  | ForwardingState.Self => r
  | ForwardingState.ForwardedTo target => target

/-- Modelled from the spec: the shared barrier-set resolution function
`ShenandoahBarrierSet::write_barrier` (not under `src/`), which resolves
`src` through the forwarding protocol. -/
def ShenandoahBarrierSet.write_barrier (h : FwdHeap) (src : ObjRef) : ObjRef :=
  resolve h src

/-- From the source (`shenandoahRuntime.cpp`): the compiled-code (JRT-leaf)
write-barrier entry; delegates to the shared barrier-set resolution. -/
def ShenandoahRuntime.write_barrier_JRT (h : FwdHeap) (src : ObjRef) : ObjRef :=
  ShenandoahBarrierSet.write_barrier h src

/-- From the source (`shenandoahRuntime.cpp`): the interpreter (IRT-leaf)
write-barrier entry; delegates to the shared barrier-set resolution. -/
def ShenandoahRuntime.write_barrier_IRT (h : FwdHeap) (src : ObjRef) : ObjRef :=
  ShenandoahBarrierSet.write_barrier h src

/-- Well-formedness of the forwarding heap, from the spec's data model:
a forwarding state is installed exactly once per relocation and its
target is the authoritative to-space reference, i.e. the target itself
has not been relocated. -/
def FwdHeapWF (h : FwdHeap) : Prop :=
  ∀ r target, h r = ForwardingState.ForwardedTo target →
    h target = ForwardingState.Self

/-- A per-thread SATB mark queue: a fixed capacity and the current
buffer contents (oldest first). -/
structure SATBQueue where
  capacity : Nat
  buf : List ObjRef
deriving DecidableEq

/-- Modelled from the spec: `enqueue(buffer, ref)` (§4.2), the body of
`SATBMarkQueue::enqueue`, which is not under `src/`.  Appends `ref`; if
the buffer thereby becomes full it is handed off whole to the
PendingLogSet and the thread gets a fresh empty buffer.  Returns the
thread's queue and the pending-log set after the call. -/
def SATBQueue.enqueue (q : SATBQueue) (pending : List (List ObjRef))
    (ref : ObjRef) : SATBQueue × List (List ObjRef) :=
  let grown := q.buf ++ [ref]
  if grown.length = q.capacity then
    ({ capacity := q.capacity, buf := [] }, pending ++ [grown])
  else
    ({ capacity := q.capacity, buf := grown }, pending)

/-- The barrier-visible collector state: each thread's SATB queue
(threads are named by naturals) and the global pending-log set of
retired buffers. -/
structure GCState where
  threads : Nat → SATBQueue
  pending : List (List ObjRef)

/-- One SATB enqueue on behalf of thread `t`, threading the global
pending-log set through `SATBQueue.enqueue`. -/
def GCState.enqueue (s : GCState) (t : Nat) (ref : ObjRef) : GCState :=
  let step := (s.threads t).enqueue s.pending ref
  { threads := fun u => if u = t then step.1 else s.threads u,
    pending := step.2 }

/-- Everything thread `t` has ever enqueued that is still observable:
the retired buffers of the pending-log set followed by the thread's
current buffer.  For single-thread reasoning this is the enqueue trace. -/
def GCState.totalLog (s : GCState) (t : Nat) : List ObjRef :=
  s.pending.flatten ++ (s.threads t).buf

/-- From the source (`shenandoahRuntime.cpp`): the field pre-write
barrier.  A null `orig` returns at once (the accompanying `assert` is
diagnostics-only and has no effect on state); otherwise the original
value is enqueued on the calling thread's SATB mark queue. -/
def ShenandoahRuntime.write_ref_field_pre_entry (s : GCState) (orig : ObjRef)
    (thread : Nat) : GCState :=
  if orig = 0 then
    s
  else
    s.enqueue thread orig

/-- The references the barrier-set array pre-barrier enqueues for `len`
full-width slots starting at `dst`: the current value of each non-null
slot, in slot order. -/
def preArraySlots (mem : Nat → ObjRef) (dst len : Nat) : List ObjRef :=
  ((List.range len).map (fun i => mem (dst + i))).filter (fun v => v ≠ 0)

/-- The references the narrow-slot array pre-barrier enqueues: each
non-null narrow slot is decoded to its full-width reference. -/
def preArraySlotsNarrow (decode : Nat → ObjRef) (memn : Nat → Nat)
    (dst len : Nat) : List ObjRef :=
  (((List.range len).map (fun i => memn (dst + i))).filter
      (fun v => v ≠ 0)).map decode

/-- Modelled from the spec: `ShenandoahBarrierSet::write_ref_array_pre`
for full-width slots (not under `src/`).  Unless the destination is
declared uninitialized, it enqueues the current value of each non-null
slot about to be destroyed, on the calling thread's SATB queue. -/
def ShenandoahBarrierSet.write_ref_array_pre (mem : Nat → ObjRef)
    (dst len : Nat) (dest_uninitialized : Bool) (s : GCState) (t : Nat) :
    GCState :=
  if dest_uninitialized then s
  else (preArraySlots mem dst len).foldl (fun st r => st.enqueue t r) s

/-- Modelled from the spec: `ShenandoahBarrierSet::write_ref_array_pre`
for narrow (compressed) slots (not under `src/`): as the full-width
version, but each non-null slot is decoded before being enqueued. -/
def ShenandoahBarrierSet.write_ref_array_pre_narrow (decode : Nat → ObjRef)
    (memn : Nat → Nat) (dst len : Nat) (dest_uninitialized : Bool)
    (s : GCState) (t : Nat) : GCState :=
  if dest_uninitialized then s
  else (preArraySlotsNarrow decode memn dst len).foldl
    (fun st r => st.enqueue t r) s

/-- From the source (`shenandoahRuntime.cpp`): the full-width array
pre-write entry; delegates to the barrier set with
`dest_uninitialized = false`. -/
def ShenandoahRuntime.write_ref_array_pre_oop_entry (mem : Nat → ObjRef)
    (dst len : Nat) (s : GCState) (t : Nat) : GCState :=
  ShenandoahBarrierSet.write_ref_array_pre mem dst len false s t

/-- From the source (`shenandoahRuntime.cpp`): the narrow-slot array
pre-write entry; delegates to the barrier set with
`dest_uninitialized = false`. -/
def ShenandoahRuntime.write_ref_array_pre_narrow_oop_entry
    (decode : Nat → ObjRef) (memn : Nat → Nat) (dst len : Nat)
    (s : GCState) (t : Nat) : GCState :=
  ShenandoahBarrierSet.write_ref_array_pre_narrow decode memn dst len false s t

/-- A contiguous heap address range: base address and length in words. -/
structure MemRegion where
  base : Nat
  size : Nat

/-- The reference-bearing slots inside a region, in address order.
`isRefSlot` tells which heap words hold references (object layout). -/
def MemRegion.refSlots (r : MemRegion) (isRefSlot : Nat → Bool) : List Nat :=
  ((List.range r.size).map (fun i => r.base + i)).filter isRefSlot

/-- An individual write barrier applied to the single heap slot `a`:
the slot's reference is replaced by its resolved (to-space) value, all
other slots are untouched. -/
def fieldWriteBarrier (h : FwdHeap) (a : Nat) (mem : Nat → ObjRef) :
    Nat → ObjRef :=
  fun x => if x = a then resolve h (mem a) else mem x

/-- Modelled from the spec: `ShenandoahBarrierSet::write_region` (not
under `src/`).  Treats the region as fully re-barriered: every
reference-bearing slot inside it is updated to its resolved (to-space)
value, slots outside the region and non-reference slots are untouched. -/
def ShenandoahBarrierSet.write_region (h : FwdHeap) (isRefSlot : Nat → Bool)
    (r : MemRegion) (mem : Nat → ObjRef) : Nat → ObjRef :=
  fun x =>
    if r.base ≤ x ∧ x < r.base + r.size ∧ isRefSlot x = true then
      resolve h (mem x)
    else
      mem x

/-- From the source (`shenandoahRuntime.cpp`): the clone barrier; applies
the barrier set's `write_region` to `MemRegion(obj, obj->size())`. -/
def ShenandoahRuntime.shenandoah_clone_barrier (h : FwdHeap)
    (isRefSlot : Nat → Bool) (objSize : Nat → Nat) (obj : Nat)
    (mem : Nat → ObjRef) : Nat → ObjRef :=
  ShenandoahBarrierSet.write_region h isRefSlot
    { base := obj, size := objSize obj } mem

/-- Running a sequence of SATB enqueues on a single thread, starting
from an empty buffer of capacity `cap` and an empty pending-log set. -/
def enqueueRun (cap : Nat) (refs : List ObjRef) :
    SATBQueue × List (List ObjRef) :=
  refs.foldl (fun qp r => SATBQueue.enqueue qp.1 qp.2 r)
    ({ capacity := cap, buf := [] }, [])

/- ------------------------------------------------------------------ -/
/- Helper lemmas (shared; not claim theorems).                         -/
/- ------------------------------------------------------------------ -/

theorem GCState.totalLog_enqueue (s : GCState) (t : Nat) (r : ObjRef) :
    (s.enqueue t r).totalLog t = s.totalLog t ++ [r] := by
  unfold GCState.enqueue GCState.totalLog SATBQueue.enqueue
  by_cases hfull : (s.threads t).buf.length + 1 = (s.threads t).capacity
  · simp [hfull, List.flatten_append, List.append_assoc]
  · simp [hfull, List.append_assoc]

theorem GCState.threads_enqueue_other (s : GCState) (t u : Nat) (r : ObjRef)
    (hu : u ≠ t) : (s.enqueue t r).threads u = s.threads u := by
  simp [GCState.enqueue, hu]

theorem GCState.totalLog_foldl_enqueue (l : List ObjRef) (s : GCState)
    (t : Nat) :
    (l.foldl (fun st r => st.enqueue t r) s).totalLog t =
      s.totalLog t ++ l := by
  induction l generalizing s with
  | nil => simp
  | cons a l ih =>
    simp only [List.foldl_cons]
    rw [ih, GCState.totalLog_enqueue, List.append_assoc]
    rfl

theorem foldl_fieldWriteBarrier_nodup (h : FwdHeap) :
    ∀ (l : List Nat), l.Nodup → ∀ (mem : Nat → ObjRef),
      l.foldl (fun m a => fieldWriteBarrier h a m) mem =
        fun x => if x ∈ l then resolve h (mem x) else mem x := by
  intro l
  induction l with
  | nil =>
    intro _ mem
    funext x
    simp
  | cons a l ih =>
    intro hl mem
    have hna : a ∉ l := (List.nodup_cons.mp hl).1
    have hnd : l.Nodup := (List.nodup_cons.mp hl).2
    funext x
    simp only [List.foldl_cons]
    rw [ih hnd (fieldWriteBarrier h a mem)]
    by_cases hxl : x ∈ l
    · have hxa : x ≠ a := fun hc => hna (hc ▸ hxl)
      simp [hxl, hxa, fieldWriteBarrier]
    · by_cases hxa : x = a
      · subst hxa
        simp [hxl, fieldWriteBarrier]
      · simp [hxl, hxa, fieldWriteBarrier]

theorem MemRegion.refSlots_nodup (r : MemRegion) (isRefSlot : Nat → Bool) :
    (r.refSlots isRefSlot).Nodup := by
  unfold MemRegion.refSlots
  refine List.Nodup.filter _ ?_
  refine List.Nodup.map ?_ (List.nodup_range _)
  intro i j hij
  exact Nat.add_left_cancel hij

theorem MemRegion.mem_refSlots (r : MemRegion) (isRefSlot : Nat → Bool)
    (x : Nat) :
    x ∈ r.refSlots isRefSlot ↔
      r.base ≤ x ∧ x < r.base + r.size ∧ isRefSlot x = true := by
  unfold MemRegion.refSlots
  simp only [List.mem_filter, List.mem_map, List.mem_range]
  constructor
  · rintro ⟨⟨i, hi, rfl⟩, hs⟩
    exact ⟨Nat.le_add_right _ _, by omega, hs⟩
  · rintro ⟨h1, h2, hs⟩
    exact ⟨⟨x - r.base, by omega, by omega⟩, hs⟩

theorem foldl_enqueue_no_handoff :
    ∀ (l : List ObjRef) (q : SATBQueue) (p : List (List ObjRef)),
      q.buf.length + l.length < q.capacity →
      l.foldl (fun qp r => SATBQueue.enqueue qp.1 qp.2 r) (q, p) =
        ({ capacity := q.capacity, buf := q.buf ++ l }, p) := by
  intro l
  induction l with
  | nil =>
    intro q p _
    simp
  | cons a l ih =>
    intro q p hlen
    have hlen' : q.buf.length + l.length + 1 < q.capacity := by
      simp only [List.length_cons] at hlen
      omega
    have hne : ¬ (q.buf ++ [a]).length = q.capacity := by
      simp only [List.length_append, List.length_cons, List.length_nil]
      omega
    simp only [List.foldl_cons]
    have hstep : SATBQueue.enqueue q p a =
        ({ capacity := q.capacity, buf := q.buf ++ [a] }, p) := by
      simp only [SATBQueue.enqueue, if_neg hne]
    rw [hstep, ih]
    · simp
    · simp only [List.length_append, List.length_cons, List.length_nil]
      omega

theorem enqueueRun_255 :
    enqueueRun 256 ((List.range 255).map (fun i => i + 1)) =
      ({ capacity := 256, buf := (List.range 255).map (fun i => i + 1) },
        []) := by
  unfold enqueueRun
  rw [foldl_enqueue_no_handoff]
  · simp
  · simp

theorem range_256_split :
    (List.range 256).map (fun i => i + 1) =
      ((List.range 255).map (fun i => i + 1)) ++ [256] := by
  rw [show (256 : Nat) = 255 + 1 from rfl, List.range_succ]
  simp

theorem enqueueRun_256 :
    enqueueRun 256 ((List.range 256).map (fun i => i + 1)) =
      ({ capacity := 256, buf := [] },
        [(List.range 256).map (fun i => i + 1)]) := by
  have hstep : SATBQueue.enqueue
      { capacity := 256, buf := (List.range 255).map (fun i => i + 1) }
      [] 256 =
      ({ capacity := 256, buf := [] },
        [((List.range 255).map (fun i => i + 1)) ++ [256]]) := by
    simp [SATBQueue.enqueue]
  unfold enqueueRun
  nth_rewrite 1 [range_256_split]
  rw [List.foldl_append]
  have h255 := enqueueRun_255
  unfold enqueueRun at h255
  rw [h255]
  simp only [List.foldl_cons, List.foldl_nil]
  rw [hstep, ← range_256_split]

theorem range_300_split :
    (List.range 300).map (fun i => i + 1) =
      ((List.range 256).map (fun i => i + 1)) ++
        ((List.range 300).map (fun i => i + 1)).drop 256 := by
  have htake : ((List.range 300).map (fun i => i + 1)).take 256 =
      (List.range 256).map (fun i => i + 1) := by
    rw [← List.map_take, List.take_range]
    norm_num
  conv_lhs => rw [← List.take_append_drop 256
    ((List.range 300).map (fun i => i + 1))]
  rw [htake]

theorem drop_256_length :
    (((List.range 300).map (fun i => i + 1)).drop 256).length = 44 := by
  simp

theorem enqueueRun_300 :
    enqueueRun 256 ((List.range 300).map (fun i => i + 1)) =
      ({ capacity := 256,
         buf := ((List.range 300).map (fun i => i + 1)).drop 256 },
        [(List.range 256).map (fun i => i + 1)]) := by
  unfold enqueueRun
  nth_rewrite 1 [range_300_split]
  rw [List.foldl_append]
  have h256 := enqueueRun_256
  unfold enqueueRun at h256
  rw [h256, foldl_enqueue_no_handoff]
  · simp
  · simp only [List.length_nil, drop_256_length]
    omega

/-- A concrete forwarding heap for witnesses: object `1` has been
relocated to `2`, nothing else is forwarded. -/
def fwd1to2 : FwdHeap :=
  fun r => if r = 1 then ForwardingState.ForwardedTo 2
           else ForwardingState.Self

theorem fwd1to2_wf : FwdHeapWF fwd1to2 := by
  intro r target hr
  by_cases hr1 : r = 1
  · simp [fwd1to2, hr1] at hr
    simp [fwd1to2, ← hr]
  · simp [fwd1to2, hr1] at hr

/-- A concrete collector state for witnesses: every thread holds an
empty buffer of capacity 256 and the pending-log set is empty. -/
def initState : GCState :=
  { threads := fun _ => { capacity := 256, buf := [] }, pending := [] }

/- ------------------------------------------------------------------ -/
/- Claim theorems.                                                     -/
/- ------------------------------------------------------------------ -/

/-- C1: for a non-null, valid reference `orig`, the field pre-write
barrier enqueues exactly `orig` into the calling thread's SATB log
(the thread's observable enqueue trace grows by exactly `[orig]`), and
no other thread's queue is touched. -/
theorem C1_field_pre_enqueues_exactly (s : GCState) (orig : ObjRef)
    (t : Nat) (is_oop : ObjRef → Prop) (hnull : orig ≠ 0)
    (_hvalid : is_oop orig) :
    (ShenandoahRuntime.write_ref_field_pre_entry s orig t).totalLog t =
      s.totalLog t ++ [orig] ∧
    ∀ u, u ≠ t →
      (ShenandoahRuntime.write_ref_field_pre_entry s orig t).threads u =
        s.threads u := by
  unfold ShenandoahRuntime.write_ref_field_pre_entry
  simp only [hnull, if_false]
  exact ⟨GCState.totalLog_enqueue s t orig,
    fun u hu => GCState.threads_enqueue_other s t u orig hu⟩

/-- C1 witness: enqueueing the non-null valid reference `5` on thread `0`
of the initial state appends exactly `5` to that thread's log. -/
theorem C1_field_pre_enqueues_exactly_witness :
    (ShenandoahRuntime.write_ref_field_pre_entry initState 5 0).totalLog 0 =
      initState.totalLog 0 ++ [5] ∧
    ∀ u, u ≠ 0 →
      (ShenandoahRuntime.write_ref_field_pre_entry initState 5 0).threads u =
        initState.threads u :=
  C1_field_pre_enqueues_exactly initState 5 0 (fun r => r = 5)
    (by decide) rfl

/-- C2: the compiled-code write-barrier entry (`write_barrier_JRT`) and
the interpreter write-barrier entry (`write_barrier_IRT`) return the same
result on every input reference: both delegate to the single shared
barrier-set resolution function. -/
theorem C2_jrt_irt_agree (h : FwdHeap) (src : ObjRef) :
    ShenandoahRuntime.write_barrier_JRT h src =
      ShenandoahRuntime.write_barrier_IRT h src := rfl

/-- C3: forwarding resolution, as invoked by the write-barrier entry
points, is idempotent on a well-formed forwarding heap:
`resolve (resolve x) = resolve x`. -/
theorem C3_resolve_idempotent (h : FwdHeap) (hwf : FwdHeapWF h)
    (x : ObjRef) :
    ShenandoahRuntime.write_barrier_JRT h
        (ShenandoahRuntime.write_barrier_JRT h x) =
      ShenandoahRuntime.write_barrier_JRT h x := by
  unfold ShenandoahRuntime.write_barrier_JRT ShenandoahBarrierSet.write_barrier
  unfold resolve
  cases hx : h x with
  | Self => simp [hx]
  | ForwardedTo target => simp [hwf x target hx]

/-- C3 witness: a concrete well-formed heap forwarding `1 ↦ 2`, with
idempotence of resolution evaluated at `1`. -/
theorem C3_resolve_idempotent_witness :
    FwdHeapWF (fun r =>
        if r = 1 then ForwardingState.ForwardedTo 2
        else ForwardingState.Self) ∧
      ShenandoahRuntime.write_barrier_JRT (fun r =>
          if r = 1 then ForwardingState.ForwardedTo 2
          else ForwardingState.Self)
        (ShenandoahRuntime.write_barrier_JRT (fun r =>
            if r = 1 then ForwardingState.ForwardedTo 2
            else ForwardingState.Self) 1) =
      ShenandoahRuntime.write_barrier_JRT (fun r =>
          if r = 1 then ForwardingState.ForwardedTo 2
          else ForwardingState.Self) 1 := by
  refine ⟨?_, ?_⟩
  · intro r target hr
    by_cases hr1 : r = 1
    · simp [hr1] at hr
      simp [← hr]
    · simp [hr1] at hr
  · exact C3_resolve_idempotent _
      (by
        intro r target hr
        by_cases hr1 : r = 1
        · simp [hr1] at hr
          simp [← hr]
        · simp [hr1] at hr) 1

/-- C10: calling the field pre-write barrier with a null `orig` returns
without enqueueing anything and without modifying any state: the null
check and early return are ordinary code in every build. -/
theorem C10_null_orig_noop (s : GCState) (thread : Nat) :
    ShenandoahRuntime.write_ref_field_pre_entry s 0 thread = s := by
  simp [ShenandoahRuntime.write_ref_field_pre_entry]

/-- C4: once a forwarding state is `ForwardedTo B` for object `A`, every
barrier resolution of `A` returns `B` (never the from-space address `A`
when `A ≠ B`), and resolving `B` itself returns `B`. -/
theorem C4_forwarded_monotone (h : FwdHeap) (hwf : FwdHeapWF h)
    (A B : ObjRef) (hAB : h A = ForwardingState.ForwardedTo B) :
    ShenandoahRuntime.write_barrier_JRT h A = B ∧
    ShenandoahRuntime.write_barrier_JRT h B = B ∧
    (A ≠ B → ShenandoahRuntime.write_barrier_JRT h A ≠ A) := by
  have h1 : ShenandoahRuntime.write_barrier_JRT h A = B := by
    simp [ShenandoahRuntime.write_barrier_JRT,
      ShenandoahBarrierSet.write_barrier, resolve, hAB]
  have h2 : ShenandoahRuntime.write_barrier_JRT h B = B := by
    simp [ShenandoahRuntime.write_barrier_JRT,
      ShenandoahBarrierSet.write_barrier, resolve, hwf A B hAB]
  refine ⟨h1, h2, ?_⟩
  intro hne hc
  rw [h1] at hc
  exact hne hc.symm

/-- C4 witness: on the concrete heap forwarding `1 ↦ 2`, resolving `1`
returns `2` (not `1`) and resolving `2` returns `2`. -/
theorem C4_forwarded_monotone_witness :
    ShenandoahRuntime.write_barrier_JRT fwd1to2 1 = 2 ∧
    ShenandoahRuntime.write_barrier_JRT fwd1to2 2 = 2 ∧
    ((1 : ObjRef) ≠ 2 → ShenandoahRuntime.write_barrier_JRT fwd1to2 1 ≠ 1) :=
  C4_forwarded_monotone fwd1to2 fwd1to2_wf 1 2 (by simp [fwd1to2])

/-- C5: each array pre-barrier entry (full-width and narrow) enqueues
exactly the non-null current slot values — hence at most `len`
references — and for `len = 0` it is a no-op that leaves the state
unchanged. -/
theorem C5_array_pre_bounded (mem : Nat → ObjRef) (decode : Nat → ObjRef)
    (memn : Nat → Nat) (dst len : Nat) (s : GCState) (t : Nat) :
    (ShenandoahRuntime.write_ref_array_pre_oop_entry mem dst len s
        t).totalLog t = s.totalLog t ++ preArraySlots mem dst len ∧
    (preArraySlots mem dst len).length ≤ len ∧
    (ShenandoahRuntime.write_ref_array_pre_narrow_oop_entry decode memn dst
        len s t).totalLog t =
      s.totalLog t ++ preArraySlotsNarrow decode memn dst len ∧
    (preArraySlotsNarrow decode memn dst len).length ≤ len ∧
    ShenandoahRuntime.write_ref_array_pre_oop_entry mem dst 0 s t = s ∧
    ShenandoahRuntime.write_ref_array_pre_narrow_oop_entry decode memn dst 0
      s t = s := by
  refine ⟨?_, ?_, ?_, ?_, ?_, ?_⟩
  · unfold ShenandoahRuntime.write_ref_array_pre_oop_entry
      ShenandoahBarrierSet.write_ref_array_pre
    simp only [Bool.false_eq_true, if_false]
    exact GCState.totalLog_foldl_enqueue _ s t
  · calc (preArraySlots mem dst len).length
        ≤ ((List.range len).map (fun i => mem (dst + i))).length :=
          List.length_filter_le _ _
      _ = len := by simp
  · unfold ShenandoahRuntime.write_ref_array_pre_narrow_oop_entry
      ShenandoahBarrierSet.write_ref_array_pre_narrow
    simp only [Bool.false_eq_true, if_false]
    exact GCState.totalLog_foldl_enqueue _ s t
  · calc (preArraySlotsNarrow decode memn dst len).length
        = (((List.range len).map (fun i => memn (dst + i))).filter
            (fun v => v ≠ 0)).length := by
          simp [preArraySlotsNarrow]
      _ ≤ ((List.range len).map (fun i => memn (dst + i))).length :=
          List.length_filter_le _ _
      _ = len := by simp
  · simp [ShenandoahRuntime.write_ref_array_pre_oop_entry,
      ShenandoahBarrierSet.write_ref_array_pre, preArraySlots]
  · simp [ShenandoahRuntime.write_ref_array_pre_narrow_oop_entry,
      ShenandoahBarrierSet.write_ref_array_pre_narrow, preArraySlotsNarrow]

/-- C6: the clone barrier processes exactly the region starting at the
object's address with length `objSize obj`: its result coincides with
individually write-barriering every reference-bearing slot of that
region, one slot at a time, so the cloning code need not issue per-field
barrier calls. -/
theorem C6_clone_barrier_is_per_slot (h : FwdHeap)
    (isRefSlot : Nat → Bool) (objSize : Nat → Nat) (obj : Nat)
    (mem : Nat → ObjRef) :
    ShenandoahRuntime.shenandoah_clone_barrier h isRefSlot objSize obj mem =
      (MemRegion.refSlots { base := obj, size := objSize obj }
          isRefSlot).foldl (fun m a => fieldWriteBarrier h a m) mem := by
  rw [foldl_fieldWriteBarrier_nodup h _ (MemRegion.refSlots_nodup _ _) mem]
  funext x
  by_cases hc : obj ≤ x ∧ x < obj + objSize obj ∧ isRefSlot x = true
  · have hm : x ∈ MemRegion.refSlots
        { base := obj, size := objSize obj } isRefSlot :=
      (MemRegion.mem_refSlots _ _ _).mpr hc
    simp [ShenandoahRuntime.shenandoah_clone_barrier,
      ShenandoahBarrierSet.write_region, hc, hm]
  · have hm : x ∉ MemRegion.refSlots
        { base := obj, size := objSize obj } isRefSlot := by
      intro hmem
      exact hc ((MemRegion.mem_refSlots _ _ _).mp hmem)
    simp [ShenandoahRuntime.shenandoah_clone_barrier,
      ShenandoahBarrierSet.write_region, hc, hm]

/-- C7: with capacity 256 and 300 distinct references enqueued
sequentially on one thread, nothing is handed off through the 255th
enqueue, the 256th enqueue hands the full buffer off whole (pending-log
set length becomes 1), and the remaining 44 references land in the fresh
buffer, which ends with length 44. -/
theorem C7_satb_handoff_scenario :
    (enqueueRun 256 ((List.range 255).map (fun i => i + 1))).2.length = 0 ∧
    (enqueueRun 256 ((List.range 256).map (fun i => i + 1))).2.length = 1 ∧
    (enqueueRun 256 ((List.range 300).map (fun i => i + 1))).2 =
      [(List.range 256).map (fun i => i + 1)] ∧
    (enqueueRun 256 ((List.range 300).map (fun i => i + 1))).1.buf.length
      = 44 ∧
    (enqueueRun 256 ((List.range 300).map (fun i => i + 1))).1.buf =
      ((List.range 300).map (fun i => i + 1)).drop 256 := by
  refine ⟨?_, ?_, ?_, ?_, ?_⟩
  · simp only [enqueueRun_255, List.length_nil]
  · simp only [enqueueRun_256, List.length_cons, List.length_nil]
  · simp only [enqueueRun_300]
  · simp only [enqueueRun_300, drop_256_length]
  · simp only [enqueueRun_300]

/-- Closure of the forwarding heap over a managed-heap predicate, from
the spec's data model: every installed forwarding target is a non-null
reference inside the managed heap (the authoritative to-space copy). -/
def HeapClosed (h : FwdHeap) (inHeap : ObjRef → Prop) : Prop :=
  ∀ r target, h r = ForwardingState.ForwardedTo target →
    target ≠ 0 ∧ inHeap target

/-- C8: for a live (non-null, in-heap) input reference, barrier
resolution never returns null and never returns an address outside the
managed heap, provided forwarding targets are themselves valid heap
references. -/
theorem C8_resolve_total (h : FwdHeap) (inHeap : ObjRef → Prop)
    (hclosed : HeapClosed h inHeap) (src : ObjRef) (hnull : src ≠ 0)
    (hin : inHeap src) :
    ShenandoahRuntime.write_barrier_JRT h src ≠ 0 ∧
    inHeap (ShenandoahRuntime.write_barrier_JRT h src) := by
  unfold ShenandoahRuntime.write_barrier_JRT ShenandoahBarrierSet.write_barrier
  unfold resolve
  cases hs : h src with
  | Self => exact ⟨hnull, hin⟩
  | ForwardedTo target => exact hclosed src target hs

/-- C8 witness: on the concrete heap forwarding `1 ↦ 2` with managed
heap `{1, 2}`, resolving the live reference `1` yields a non-null
in-heap reference. -/
theorem C8_resolve_total_witness :
    ShenandoahRuntime.write_barrier_JRT fwd1to2 1 ≠ 0 ∧
    (ShenandoahRuntime.write_barrier_JRT fwd1to2 1 = 1 ∨
      ShenandoahRuntime.write_barrier_JRT fwd1to2 1 = 2) :=
  C8_resolve_total fwd1to2 (fun r => r = 1 ∨ r = 2)
    (by
      intro r target hr
      by_cases hr1 : r = 1
      · simp [fwd1to2, hr1] at hr
        simp [← hr]
      · simp [fwd1to2, hr1] at hr)
    1 (by decide) (Or.inl rfl)
